import Mathlib

/-!
Verification of the perftree core (`src/perftree/src/lib.rs`): the dual-backend
perft comparison tool.  Rust strings are modelled as `String`, `u128` counts as
`Nat` (the numeric parser enforces the `u128` bound `2 ^ 128`), `usize`
subtraction as wrapping 64-bit subtraction, `BTreeMap<String, _>` as an
association list kept strictly sorted by byte-lexicographic key order, and the
two subprocess transports as explicit line streams.  All string operations used
by the source (`split(": ")`, `split_whitespace`, `trim`, `is_empty`,
`u128::from_str`, `join(" ")`) are implemented as structural recursions over
`List Char` so that every definition evaluates by kernel reduction.
-/

namespace Perftree

/-- Byte/codepoint lexicographic strict order on char lists: the order Rust's
`Ord for String` (UTF-8 byte order, which agrees with codepoint order) gives to
`BTreeMap<String, _>` keys. -/
def charListLt : List Char → List Char → Bool
  | [], [] => false
  | [], _ :: _ => true
  | _ :: _, [] => false
  | a :: as, b :: bs =>
    if a.toNat < b.toNat then true
    else if b.toNat < a.toNat then false
    else charListLt as bs

/-- Strict lexicographic order on strings (Rust `String` ordering). -/
def strLt (a b : String) : Bool := charListLt a.data b.data

/-- ASCII whitespace test, as used by Rust's `str::trim` /
`split_whitespace` on the ASCII data this tool handles. -/
def isWsChar (c : Char) : Bool :=
  c.toNat = 32 || c.toNat = 9 || c.toNat = 10 || c.toNat = 13

/-- Strip leading and trailing whitespace (Rust `str::trim`). -/
def trimChars (l : List Char) : List Char :=
  ((l.dropWhile isWsChar).reverse.dropWhile isWsChar).reverse

/-- Rust `str::trim` on strings. -/
def strTrim (s : String) : String := String.mk (trimChars s.data)

/-- Worker for splitting on the two-character separator `": "`, Rust
`str::split(": ")`: non-overlapping matches, left to right.  `cur` holds the
current field reversed. -/
def splitColonSpaceGo : List Char → List Char → List (List Char)
  | cur, [] => [cur.reverse]
  | cur, ':' :: ' ' :: cs => cur.reverse :: splitColonSpaceGo [] cs
  | cur, c :: cs => splitColonSpaceGo (c :: cur) cs

/-- Rust `line.split(": ")` as a list of fields. -/
def splitColonSpace (s : String) : List String :=
  (splitColonSpaceGo [] s.data).map String.mk

/-- Worker for Rust `str::split_whitespace`: fields separated by whitespace
runs, with no empty fields. -/
def splitWsGo : List Char → List Char → List (List Char)
  | cur, [] => if cur.isEmpty then [] else [cur.reverse]
  | cur, c :: cs =>
    if isWsChar c then
      if cur.isEmpty then splitWsGo [] cs else cur.reverse :: splitWsGo [] cs
    else splitWsGo (c :: cur) cs

/-- Rust `line.split_whitespace()` as a list of tokens. -/
def splitWs (s : String) : List String := (splitWsGo [] s.data).map String.mk

/-- ASCII digit test. -/
def isDigitChar (c : Char) : Bool := 48 ≤ c.toNat && c.toNat ≤ 57

/-- Rust `str::parse::<u128>()`: an optional leading `+`, then one or more
ASCII digits, with the value bounded by `u128::MAX`; anything else is a parse
error (`None`). -/
def parseU128 (s : String) : Option Nat :=
  let l : List Char :=
    match s.data with
    | '+' :: rest => rest
    | l => l
  if l.isEmpty then none
  else if l.all isDigitChar then
    let n := l.foldl (fun a c => a * 10 + (c.toNat - 48)) 0
    if n < 2 ^ 128 then some n else none
  else none

/-- Rust `[String]::join(" ")`. -/
def joinSpace : List String → String
  | [] => ""
  | [m] => m
  | m :: rest => m ++ " " ++ joinSpace rest

/-- Wrapping subtraction on 64-bit `usize`, the semantics of the unchecked
`self.depth - self.moves.len()` in `State::diff` (release-mode Rust). -/
def usizeSub (a b : Nat) : Nat := (a + 2 ^ 64 - b % 2 ^ 64) % 2 ^ 64

/-- Worker splitting a char list on a single separator character. -/
def splitCharGo (sep : Char) : List Char → List Char → List (List Char)
  | cur, [] => [cur.reverse]
  | cur, c :: cs =>
    if c = sep then cur.reverse :: splitCharGo sep [] cs
    else splitCharGo sep (c :: cur) cs

/-- Split a string at every newline character: the line structure a
line-oriented reader gives to a written byte stream. -/
def splitNl (s : String) : List String := (splitCharGo '\n' [] s.data).map String.mk

/-- `BTreeMap<String, α>` modelled as an association list strictly sorted by
`strLt`.  Insertion replaces the value of an existing key (Rust
`BTreeMap::insert`). -/
def btmInsert {α : Type} : List (String × α) → String → α → List (String × α)
  | [], k, v => [(k, v)]
  | (k₀, v₀) :: t, k, v =>
    if strLt k k₀ then (k, v) :: (k₀, v₀) :: t
    else if k = k₀ then (k, v) :: t
    else (k₀, v₀) :: btmInsert t k v

/-- Key lookup in the association-list map (Rust `BTreeMap::get`). -/
def btmFind {α : Type} : List (String × α) → String → Option α
  | [], _ => none
  | (k₀, v₀) :: t, k => if k = k₀ then some v₀ else btmFind t k

/-- The map invariant: keys strictly increasing in `strLt`, which is the
iteration/row order of a Rust `BTreeMap`. -/
def btmSortedB {α : Type} : List (String × α) → Bool
  | [] => true
  | [_] => true
  | a :: b :: t => strLt a.1 b.1 && btmSortedB ((b :: t) : List (String × α))

/-- Lookup returning the LAST binding of a key in a raw pair list: the net
effect of inserting the pairs left to right into a map, where later bindings
replace earlier ones. -/
def lastFind {α : Type} : List (String × α) → String → Option α
  | [], _ => none
  | (k₀, v₀) :: t, k =>
    match lastFind t k with
    | some w => some w
    | none => if k = k₀ then some v₀ else none

/-- One backend's answer to one query (struct `Perft`): total node count plus
per-move child counts in a `BTreeMap`. -/
structure Perft where
  total_count : Nat
  child_count : List (String × Nat)
deriving DecidableEq

/-- The merged comparison table (struct `Diff`): pair of totals plus a
`BTreeMap` from move to the two optional counts. -/
structure Diff where
  total_count : Nat × Nat
  child_count : List (String × (Option Nat × Option Nat))
deriving DecidableEq

/-- First loop body of `Diff::new`:
`child_count.entry(move_.clone()).or_insert((None, None)).0 = Some(count)`. -/
def setFst (m : List (String × (Option Nat × Option Nat))) (k : String) (c : Nat) :
    List (String × (Option Nat × Option Nat)) :=
  match btmFind m k with
  | some p => btmInsert m k (some c, p.2)
  | none => btmInsert m k (some c, none)

/-- Second loop body of `Diff::new`:
`child_count.entry(move_.clone()).or_insert((None, None)).1 = Some(count)`. -/
def setSnd (m : List (String × (Option Nat × Option Nat))) (k : String) (c : Nat) :
    List (String × (Option Nat × Option Nat)) :=
  match btmFind m k with
  | some p => btmInsert m k (p.1, some c)
  | none => btmInsert m k (none, some c)

/-- `Diff::new(lhs, rhs)`: iterate `lhs.child_count` (in map order) recording
counts on the left side, then `rhs.child_count` recording counts on the right
side; the totals are the verbatim pair of the two totals. -/
def Diff.new (lhs rhs : Perft) : Diff :=
  { total_count := (lhs.total_count, rhs.total_count)
    child_count :=
      rhs.child_count.foldl (fun acc p => setSnd acc p.1 p.2)
        (lhs.child_count.foldl (fun acc p => setFst acc p.1 p.2) []) }

/-- One child-move row of the script backend's stdout (`Script::perft` loop
body): split the line on whitespace, first token is the move, second the
count; a missing token or a non-numeric count is an `InvalidInput` failure. -/
def scrRowParse (line : String) : Except String (String × Nat) :=
  match splitWs line with
  | [] => .error "unexpected end of line; expected move and count separated by spaces"
  | [_] => .error "unexpected end of line; expected move and count separated by spaces"
  | mv :: cs :: _ =>
    match parseU128 cs with
    | none => .error "invalid digit found in string"
    | some c => .ok (mv, c)

/-- The `Script::perft` read loop: consume stdout lines into the child-count
map until an empty line; end of stream before the empty line is an
`InvalidInput` failure.  Returns the map and the unconsumed lines. -/
def scrReadRows : List String → List (String × Nat) →
    Except String (List (String × Nat) × List String)
  | [], _ => .error "unexpected eof while parsing script output"
  | line :: rest, acc =>
    if line = "" then .ok (acc, rest)
    else
      match scrRowParse line with
      | .error e => .error e
      | .ok p => scrReadRows rest (btmInsert acc p.1 p.2)

/-- `Script::perft` output parsing: child-move rows until a blank line, then
one total-count line; anything after the total line is ignored. -/
def scriptParse (ls : List String) : Except String Perft :=
  match scrReadRows ls [] with
  | .error e => .error e
  | .ok (cc, rest) =>
    match rest with
    | [] => .error "unexpected eof while parsing script output"
    | t :: _ =>
      match parseU128 t with
      | none => .error "invalid digit found in string"
      | some n => .ok ⟨n, cc⟩

/-- `Script::perft` as a whole: the subprocess invocation may fail at the
transport level (`command.output()?`), otherwise its stdout lines are
parsed. -/
def scriptPerft (outcome : Except String (List String)) : Except String Perft :=
  match outcome with
  | .error e => .error e
  | .ok ls => scriptParse ls

/-- The exact byte stream `Stockfish::perft` writes to the engine's stdin for
one query: `write!("setoption name UCI_Chess960 value {}", chess960)` (no
newline), `write!("position fen {}", fen)`, `write!(" moves {}", joined)` when
the move path is non-empty, then `write!("\ngo perft {}\n", depth)`. -/
def stockfishRequest (chess960 : Bool) (fen : String) (moves : List String)
    (depth : Nat) : String :=
  "setoption name UCI_Chess960 value " ++ (if chess960 then "true" else "false")
    ++ "position fen " ++ fen
    ++ (if moves.isEmpty then "" else " moves " ++ joinSpace moves)
    ++ "\n" ++ "go perft " ++ Nat.repr depth ++ "\n"

/-- One child-move row of the engine's response (`Stockfish::perft` loop
body): trim the line, split on `": "`, first field is the move, second the
count. -/
def sfRowParse (line : String) : Except String (String × Nat) :=
  match splitColonSpace (strTrim line) with
  | [] => .error "unexpected end of line"
  | [_] => .error "unexpected end of line"
  | mv :: cs :: _ =>
    match parseU128 cs with
    | none => .error "invalid digit found in string"
    | some c => .ok (mv, c)

/-- The `Stockfish::perft` read loop: `read_line` until a line that is blank
after trimming (at end of stream `read_line` yields the empty string, which
also ends the loop).  Returns the map outcome and the unconsumed stream. -/
def sfReadRows : List String → List (String × Nat) →
    Except String (List (String × Nat)) × List String
  | [], acc => (.ok acc, [])
  | line :: rest, acc =>
    if strTrim line = "" then (.ok acc, rest)
    else
      match sfRowParse line with
      | .error e => (.error e, rest)
      | .ok p => sfReadRows rest (btmInsert acc p.1 p.2)

/-- The `Stockfish::perft` total-count step: `read_line`, trim, split on
`": "`, and take field `nth(1)` (the second field); a missing field is an
`InvalidInput` failure.  At end of stream the line read is empty. -/
def sfReadTotal : List String → Except String Nat × List String
  | [] =>
    ((splitColonSpace (strTrim ""))[1]?.elim (.error "unexpected end of line")
      (fun s => (parseU128 s).elim (.error "invalid digit found in string") .ok), [])
  | line :: rest =>
    match (splitColonSpace (strTrim line))[1]? with
    | none => (.error "unexpected end of line", rest)
    | some s =>
      match parseU128 s with
      | none => (.error "invalid digit found in string", rest)
      | some n => (.ok n, rest)

/-- `Stockfish::perft` response handling: child rows until a blank line, the
total-count line, then one further line read and discarded to resynchronize
the stream.  Returns the result and the remaining stream. -/
def stockfishParse (stream : List String) : Except String Perft × List String :=
  match sfReadRows stream [] with
  | (.error e, rest) => (.error e, rest)
  | (.ok cc, rest) =>
    match sfReadTotal rest with
    | (.error e, rest₂) => (.error e, rest₂)
    | (.ok n, rest₂) => (.ok ⟨n, cc⟩, rest₂.drop 1)

/-- The persistent engine connection (struct `Stockfish`): the bytes written
so far to its stdin, the pending stdout lines, and the Chess960 variant
flag. -/
structure StockfishConn where
  sent : String
  stream : List String
  chess960 : Bool
deriving DecidableEq

/-- `Stockfish::perft`: write the request for (variant flag, fen, moves,
depth), then read and parse the response from the pending stream. -/
def stockfishPerft (conn : StockfishConn) (fen : String) (moves : List String)
    (depth : Nat) : Except String Perft × StockfishConn :=
  let conn₁ : StockfishConn :=
    { conn with sent := conn.sent ++ stockfishRequest conn.chess960 fen moves depth }
  match stockfishParse conn₁.stream with
  | (.ok p, rest) => (.ok p, { conn₁ with stream := rest })
  | (.error e, rest) => (.error e, { conn₁ with stream := rest })

/-- The navigation state (struct `State`): the persistent engine connection,
the base position descriptor, the move path, and the target depth.  The script
backend holds only the command name, which plays no role in the model. -/
structure State where
  stockfish : StockfishConn
  fen : String
  moves : List String
  depth : Nat
deriving DecidableEq

/-- `State::set_fen`: replace the descriptor and clear the move path. -/
def State.setFen (s : State) (fen : String) : State :=
  { s with fen := fen, moves := [] }

/-- `State::set_moves`: replace the move path wholesale. -/
def State.setMoves (s : State) (moves : List String) : State :=
  { s with moves := moves }

/-- `State::set_depth`. -/
def State.setDepth (s : State) (depth : Nat) : State :=
  { s with depth := depth }

/-- `State::goto_root`: `self.moves.clear()`. -/
def State.gotoRoot (s : State) : State :=
  { s with moves := [] }

/-- `State::goto_parent`: `self.moves.pop()` — removes the last move;
popping an empty vector is a silent no-op. -/
def State.gotoParent (s : State) : State :=
  { s with moves := s.moves.dropLast }

/-- `State::goto_child`: `self.moves.push(move_)`. -/
def State.gotoChild (s : State) (m : String) : State :=
  { s with moves := s.moves ++ [m] }

/-- `State::set_chess960`. -/
def State.setChess960 (s : State) (b : Bool) : State :=
  { s with stockfish := { s.stockfish with chess960 := b } }

/-- `State::diff`: query the script backend, then the persistent engine, both
at depth `self.depth - self.moves.len()` (wrapping `usize` subtraction), and
merge the two reports with `Diff::new`.  The `?` operator propagates a script
failure before the engine is touched.  `scriptOut` is the outcome of the
script subprocess invocation (its stdout lines, or a transport error). -/
def State.diff (s : State) (scriptOut : Except String (List String)) :
    Except String Diff × State :=
  match scriptPerft scriptOut with
  | .error e => (.error e, s)
  | .ok lhs =>
    match stockfishPerft s.stockfish s.fen s.moves (usizeSub s.depth s.moves.length) with
    | (.error e, conn₂) => (.error e, { s with stockfish := conn₂ })
    | (.ok rhs, conn₂) => (.ok (Diff.new lhs rhs), { s with stockfish := conn₂ })

end Perftree

namespace Perftree

example : strLt "a2a3" "e2e4" = true := by decide

example : strTrim "  e2e4: 20  " = "e2e4: 20" := by decide

example : splitColonSpace "Nodes searched: 39" = ["Nodes searched", "39"] := by decide

example : splitColonSpace "" = [""] := by decide

example : splitColonSpace "a:: b" = ["a:", "b"] := by decide

example : splitWs "e2e4  20 " = ["e2e4", "20"] := by decide

example : parseU128 "400" = some 400 := by decide

example : parseU128 "+7" = some 7 := by decide

example : parseU128 "4x0" = none := by decide

example : parseU128 "" = none := by decide

example : joinSpace ["e2e4", "e7e5"] = "e2e4 e7e5" := by decide

example : usizeSub 3 2 = 1 := by decide

example : usizeSub 0 1 = 2 ^ 64 - 1 := by decide

example :
    btmInsert (btmInsert (btmInsert [] "e2e4" (20 : Nat)) "e2e3" 19) "e2e4" 7
      = [("e2e3", 19), ("e2e4", 7)] := by decide

example :
    Diff.new ⟨20, [("a2a3", 1), ("e2e4", 5)]⟩ ⟨30, [("e2e4", 6), ("h2h4", 2)]⟩
      = ⟨(20, 30), [("a2a3", (some 1, none)), ("e2e4", (some 5, some 6)),
          ("h2h4", (none, some 2))]⟩ := by decide

example : btmSortedB [("a", 1), ("b", 2)] = true := by decide

example : lastFind [("a", 1), ("a", 2)] "a" = some 2 := by decide

example :
    scriptParse ["e2e4 20", "e2e3 19", "", "400"]
      = .ok ⟨400, [("e2e3", 19), ("e2e4", 20)]⟩ := rfl

example : (scriptParse ["e2e4 20", "e2e3 19"]).isOk = false := by decide

example :
    stockfishParse ["e2e4: 20", "e2e3: 19", "", "Nodes searched: 39", ""]
      = (.ok ⟨39, [("e2e3", 19), ("e2e4", 20)]⟩, []) := rfl

example :
    stockfishRequest false "FEN" [] 1
      = "setoption name UCI_Chess960 value falseposition fen FEN\ngo perft 1\n" := by
  decide

example :
    splitNl (stockfishRequest false "FEN" [] 1)
      = ["setoption name UCI_Chess960 value falseposition fen FEN", "go perft 1", ""] := by
  decide

theorem charInj {a b : Char} (h : a.toNat = b.toNat) : a = b :=
  Char.ext (UInt32.ext h)

theorem charListLt_irrefl : ∀ l : List Char, charListLt l l = false
  | [] => rfl
  | _ :: as => by simp [charListLt, Nat.lt_irrefl, charListLt_irrefl as]

theorem strLt_irrefl (s : String) : strLt s s = false :=
  charListLt_irrefl s.data

theorem charListLt_trans :
    ∀ a b c : List Char, charListLt a b = true → charListLt b c = true →
      charListLt a c = true
  | [], [], _, hab, _ => by simp [charListLt] at hab
  | [], _ :: _, [], _, hbc => by simp [charListLt] at hbc
  | [], _ :: _, _ :: _, _, _ => rfl
  | _ :: _, [], _, hab, _ => by simp [charListLt] at hab
  | _ :: _, _ :: _, [], _, hbc => by simp [charListLt] at hbc
  | a :: as, b :: bs, c :: cs, hab, hbc => by
    simp only [charListLt] at hab hbc ⊢
    rcases Nat.lt_trichotomy a.toNat b.toNat with h₁ | h₁ | h₁ <;>
      rcases Nat.lt_trichotomy b.toNat c.toNat with h₂ | h₂ | h₂
    · simp [if_pos (by omega : a.toNat < c.toNat)]
    · simp [if_pos (by omega : a.toNat < c.toNat)]
    · rw [if_neg (by omega), if_pos (by omega)] at hbc
      exact absurd hbc (by simp)
    · simp [if_pos (by omega : a.toNat < c.toNat)]
    · rw [if_neg (by omega), if_neg (by omega)] at hab hbc
      rw [if_neg (by omega), if_neg (by omega)]
      exact charListLt_trans as bs cs hab hbc
    · rw [if_neg (by omega), if_pos (by omega)] at hbc
      exact absurd hbc (by simp)
    · rw [if_neg (by omega), if_pos (by omega)] at hab
      exact absurd hab (by simp)
    · rw [if_neg (by omega), if_pos (by omega)] at hab
      exact absurd hab (by simp)
    · rw [if_neg (by omega), if_pos (by omega)] at hab
      exact absurd hab (by simp)

theorem strLt_trans {a b c : String} (hab : strLt a b = true)
    (hbc : strLt b c = true) : strLt a c = true :=
  charListLt_trans a.data b.data c.data hab hbc

theorem charListLt_total :
    ∀ a b : List Char, charListLt a b = false → a ≠ b → charListLt b a = true
  | [], [], _, hne => absurd rfl hne
  | [], _ :: _, h, _ => by simp [charListLt] at h
  | _ :: _, [], _, _ => rfl
  | a :: as, b :: bs, h, hne => by
    simp only [charListLt] at h ⊢
    rcases Nat.lt_trichotomy a.toNat b.toNat with h₁ | h₁ | h₁
    · rw [if_pos h₁] at h
      exact absurd h (by simp)
    · rw [if_neg (by omega), if_neg (by omega)] at h
      rw [if_neg (by omega), if_neg (by omega)]
      have hab : a = b := charInj h₁
      subst hab
      exact charListLt_total as bs h (fun he => hne (by rw [he]))
    · rw [if_pos h₁]

theorem strLt_total {a b : String} (h : strLt a b = false) (hne : a ≠ b) :
    strLt b a = true :=
  charListLt_total a.data b.data h
    (fun hd => hne (by cases a; cases b; exact congrArg String.mk hd))

theorem strLt_ne {a b : String} (h : strLt a b = true) : a ≠ b := by
  intro he
  rw [he, strLt_irrefl] at h
  exact absurd h (by simp)

theorem btmFind_insert_self {α : Type} :
    ∀ (m : List (String × α)) (k : String) (v : α),
      btmFind (btmInsert m k v) k = some v
  | [], k, v => by simp [btmInsert, btmFind]
  | (k₀, v₀) :: t, k, v => by
    by_cases h₁ : strLt k k₀ = true
    · simp [btmInsert, h₁, btmFind]
    · by_cases h₂ : k = k₀
      · simp [btmInsert, h₁, h₂, btmFind, strLt_irrefl]
      · simp [btmInsert, h₁, h₂, btmFind, btmFind_insert_self t k v]

theorem btmFind_insert_ne {α : Type} :
    ∀ (m : List (String × α)) (k : String) (v : α) (k₁ : String), k₁ ≠ k →
      btmFind (btmInsert m k v) k₁ = btmFind m k₁
  | [], k, v, k₁, hne => by simp [btmInsert, btmFind, hne]
  | (k₀, v₀) :: t, k, v, k₁, hne => by
    by_cases h₁ : strLt k k₀ = true
    · simp [btmInsert, h₁, btmFind, hne]
    · by_cases h₂ : k = k₀
      · subst h₂
        simp [btmInsert, h₁, btmFind, hne]
      · simp [btmInsert, h₁, h₂, btmFind, btmFind_insert_ne t k v k₁ hne]

theorem btmSortedB_tail {α : Type} {a : String × α} {t : List (String × α)}
    (h : btmSortedB (a :: t) = true) : btmSortedB t = true := by
  cases t with
  | nil => rfl
  | cons b t' => exact (Bool.and_eq_true_iff.mp h).2

theorem btmSortedB_head_lt {α : Type} :
    ∀ {a : String × α} {t : List (String × α)}, btmSortedB (a :: t) = true →
      ∀ p ∈ t, strLt a.1 p.1 = true := by
  intro a t
  induction t generalizing a with
  | nil => intro _ p hp; cases hp
  | cons b t' ih =>
    intro h p hp
    have h₁ : strLt a.1 b.1 = true := (Bool.and_eq_true_iff.mp h).1
    have h₂ : btmSortedB (b :: t') = true := (Bool.and_eq_true_iff.mp h).2
    rcases List.mem_cons.mp hp with rfl | hp'
    · exact h₁
    · exact strLt_trans h₁ (ih h₂ p hp')

theorem btmSortedB_replace_head {α : Type} {k : String} {v₀ v : α}
    {t : List (String × α)} (h : btmSortedB ((k, v₀) :: t) = true) :
    btmSortedB ((k, v) :: t) = true := by
  cases t with
  | nil => rfl
  | cons b t' => exact h

theorem btmSortedB_cons_insert {α : Type} :
    ∀ (t : List (String × α)) (k₀ : String) (v₀ : α) (k : String) (v : α),
      btmSortedB ((k₀, v₀) :: t) = true → strLt k₀ k = true →
      btmSortedB ((k₀, v₀) :: btmInsert t k v) = true
  | [], k₀, v₀, k, v, _, hlt => by
    simp [btmInsert, btmSortedB, hlt]
  | (k₁, v₁) :: t', k₀, v₀, k, v, h, hlt => by
    have h₁ : strLt k₀ k₁ = true := (Bool.and_eq_true_iff.mp h).1
    have h₂ : btmSortedB ((k₁, v₁) :: t') = true := (Bool.and_eq_true_iff.mp h).2
    by_cases hc : strLt k k₁ = true
    · simp only [btmInsert, hc, if_true]
      simp [btmSortedB, hlt, hc, h₂]
    · by_cases he : k = k₁
      · subst he
        simp only [btmInsert, hc, if_false, if_pos rfl]
        simp [btmSortedB, hlt, btmSortedB_replace_head h₂]
      · simp only [btmInsert, hc, he, if_false]
        have hrec := btmSortedB_cons_insert t' k₁ v₁ k v h₂ (strLt_total (by simpa using hc) he)
        simp [btmSortedB, h₁]
        exact hrec

theorem btmSortedB_insert {α : Type} :
    ∀ (m : List (String × α)) (k : String) (v : α), btmSortedB m = true →
      btmSortedB (btmInsert m k v) = true
  | [], k, v, _ => rfl
  | (k₀, v₀) :: t, k, v, h => by
    by_cases h₁ : strLt k k₀ = true
    · simp only [btmInsert, h₁, if_true]
      simp [btmSortedB, h₁, h]
    · by_cases h₂ : k = k₀
      · subst h₂
        simp only [btmInsert, h₁, if_false, if_pos rfl]
        exact btmSortedB_replace_head h
      · simp only [btmInsert, h₁, h₂, if_false]
        exact btmSortedB_cons_insert t k₀ v₀ k v h
          (strLt_total (by simpa using h₁) h₂)

theorem btmFind_eq_none_of_forall {α : Type} :
    ∀ (m : List (String × α)) (k : String), (∀ p ∈ m, p.1 ≠ k) →
      btmFind m k = none
  | [], _, _ => rfl
  | (k₀, v₀) :: t, k, h => by
    have hk : k₀ ≠ k := h (k₀, v₀) (List.mem_cons_self _ _)
    simp [btmFind, Ne.symm hk,
      btmFind_eq_none_of_forall t k (fun p hp => h p (List.mem_cons_of_mem _ hp))]

theorem lastFind_eq_none_of_forall {α : Type} :
    ∀ (m : List (String × α)) (k : String), (∀ p ∈ m, p.1 ≠ k) →
      lastFind m k = none
  | [], _, _ => rfl
  | (k₀, v₀) :: t, k, h => by
    have hk : k₀ ≠ k := h (k₀, v₀) (List.mem_cons_self _ _)
    simp [lastFind, lastFind_eq_none_of_forall t k
      (fun p hp => h p (List.mem_cons_of_mem _ hp)), Ne.symm hk]

theorem lastFind_eq_btmFind {α : Type} :
    ∀ (m : List (String × α)) (k : String), btmSortedB m = true →
      lastFind m k = btmFind m k
  | [], _, _ => rfl
  | (k₀, v₀) :: t, k, h => by
    by_cases hk : k = k₀
    · subst hk
      have ht : lastFind t k = none :=
        lastFind_eq_none_of_forall t k
          (fun p hp => (strLt_ne (btmSortedB_head_lt h p hp)).symm)
      simp [lastFind, btmFind, ht]
    · have ih := lastFind_eq_btmFind t k (btmSortedB_tail h)
      simp only [lastFind, btmFind, ih, hk, if_false]
      cases btmFind t k <;> simp

theorem keys_nodup_of_btmSortedB {α : Type} :
    ∀ (m : List (String × α)), btmSortedB m = true →
      (m.map Prod.fst).Nodup
  | [], _ => List.nodup_nil
  | (k₀, v₀) :: t, h => by
    refine List.nodup_cons.mpr ⟨?_, keys_nodup_of_btmSortedB t (btmSortedB_tail h)⟩
    intro hmem
    rcases List.mem_map.mp hmem with ⟨p, hp, hkey⟩
    exact strLt_ne (btmSortedB_head_lt h p hp) hkey.symm

theorem btmFind_ne_none_iff_mem {α : Type} :
    ∀ (m : List (String × α)) (k : String),
      btmFind m k ≠ none ↔ k ∈ m.map Prod.fst
  | [], k => by simp [btmFind]
  | (k₀, v₀) :: t, k => by
    by_cases hk : k = k₀
    · subst hk
      simp [btmFind]
    · simp [btmFind, hk, btmFind_ne_none_iff_mem t k]

theorem btmFind_foldl_insert {α : Type} :
    ∀ (l : List (String × α)) (acc : List (String × α)) (k : String),
      btmFind (l.foldl (fun m p => btmInsert m p.1 p.2) acc) k
        = match lastFind l k with
          | some v => some v
          | none => btmFind acc k
  | [], acc, k => rfl
  | (k₀, v₀) :: t, acc, k => by
    simp only [List.foldl_cons, lastFind]
    rw [btmFind_foldl_insert t (btmInsert acc k₀ v₀) k]
    cases lastFind t k with
    | some w => rfl
    | none =>
      by_cases hk : k = k₀
      · subst hk
        simp [btmFind_insert_self]
      · simp [hk, btmFind_insert_ne acc k₀ v₀ k hk]

theorem btmSortedB_foldl_insert {α : Type} :
    ∀ (l : List (String × α)) (acc : List (String × α)),
      btmSortedB acc = true →
      btmSortedB (l.foldl (fun m p => btmInsert m p.1 p.2) acc) = true
  | [], _, h => h
  | (k₀, v₀) :: t, acc, h =>
    btmSortedB_foldl_insert t (btmInsert acc k₀ v₀) (btmSortedB_insert acc k₀ v₀ h)

/-- The second component of a `Diff` row's optional pair, with `none` for an
absent row. -/
def sndPart (o : Option (Option Nat × Option Nat)) : Option Nat :=
  match o with
  | some p => p.2
  | none => none

/-- The first component of a `Diff` row's optional pair, with `none` for an
absent row. -/
def fstPart (o : Option (Option Nat × Option Nat)) : Option Nat :=
  match o with
  | some p => p.1
  | none => none

theorem btmFind_setFst (m : List (String × (Option Nat × Option Nat)))
    (k : String) (c : Nat) (k₁ : String) :
    btmFind (setFst m k c) k₁
      = if k₁ = k then some (some c, sndPart (btmFind m k)) else btmFind m k₁ := by
  by_cases hk : k₁ = k
  · subst hk
    unfold setFst
    cases h : btmFind m k₁ <;> simp [btmFind_insert_self, sndPart]
  · unfold setFst
    cases h : btmFind m k <;> simp [btmFind_insert_ne m k _ k₁ hk, hk]

theorem btmFind_setSnd (m : List (String × (Option Nat × Option Nat)))
    (k : String) (c : Nat) (k₁ : String) :
    btmFind (setSnd m k c) k₁
      = if k₁ = k then some (fstPart (btmFind m k), some c) else btmFind m k₁ := by
  by_cases hk : k₁ = k
  · subst hk
    unfold setSnd
    cases h : btmFind m k₁ <;> simp [btmFind_insert_self, fstPart]
  · unfold setSnd
    cases h : btmFind m k <;> simp [btmFind_insert_ne m k _ k₁ hk, hk]

theorem btmSortedB_setFst (m : List (String × (Option Nat × Option Nat)))
    (k : String) (c : Nat) (h : btmSortedB m = true) :
    btmSortedB (setFst m k c) = true := by
  unfold setFst
  cases btmFind m k <;> exact btmSortedB_insert m k _ h

theorem btmSortedB_setSnd (m : List (String × (Option Nat × Option Nat)))
    (k : String) (c : Nat) (h : btmSortedB m = true) :
    btmSortedB (setSnd m k c) = true := by
  unfold setSnd
  cases btmFind m k <;> exact btmSortedB_insert m k _ h

theorem btmFind_foldl_setFst :
    ∀ (l : List (String × Nat)) (acc : List (String × (Option Nat × Option Nat)))
      (k : String),
      btmFind (l.foldl (fun m p => setFst m p.1 p.2) acc) k
        = match lastFind l k with
          | some c => some (some c, sndPart (btmFind acc k))
          | none => btmFind acc k
  | [], acc, k => rfl
  | (k₀, c₀) :: t, acc, k => by
    simp only [List.foldl_cons, lastFind]
    rw [btmFind_foldl_setFst t (setFst acc k₀ c₀) k]
    have hstep := btmFind_setFst acc k₀ c₀ k
    cases lastFind t k with
    | some w =>
      have : sndPart (btmFind (setFst acc k₀ c₀) k) = sndPart (btmFind acc k) := by
        rw [hstep]
        by_cases hk : k = k₀
        · subst hk
          simp [sndPart]
        · simp [hk]
      simp [this]
    | none =>
      by_cases hk : k = k₀
      · subst hk
        simp [hstep]
      · simp [hstep, hk]

theorem btmFind_foldl_setSnd :
    ∀ (l : List (String × Nat)) (acc : List (String × (Option Nat × Option Nat)))
      (k : String),
      btmFind (l.foldl (fun m p => setSnd m p.1 p.2) acc) k
        = match lastFind l k with
          | some c => some (fstPart (btmFind acc k), some c)
          | none => btmFind acc k
  | [], acc, k => rfl
  | (k₀, c₀) :: t, acc, k => by
    simp only [List.foldl_cons, lastFind]
    rw [btmFind_foldl_setSnd t (setSnd acc k₀ c₀) k]
    have hstep := btmFind_setSnd acc k₀ c₀ k
    cases lastFind t k with
    | some w =>
      have : fstPart (btmFind (setSnd acc k₀ c₀) k) = fstPart (btmFind acc k) := by
        rw [hstep]
        by_cases hk : k = k₀
        · subst hk
          simp [fstPart]
        · simp [hk]
      simp [this]
    | none =>
      by_cases hk : k = k₀
      · subst hk
        simp [hstep]
      · simp [hstep, hk]

theorem btmSortedB_foldl_setFst :
    ∀ (l : List (String × Nat)) (acc : List (String × (Option Nat × Option Nat))),
      btmSortedB acc = true →
      btmSortedB (l.foldl (fun m p => setFst m p.1 p.2) acc) = true
  | [], _, h => h
  | (k₀, c₀) :: t, acc, h =>
    btmSortedB_foldl_setFst t (setFst acc k₀ c₀) (btmSortedB_setFst acc k₀ c₀ h)

theorem btmSortedB_foldl_setSnd :
    ∀ (l : List (String × Nat)) (acc : List (String × (Option Nat × Option Nat))),
      btmSortedB acc = true →
      btmSortedB (l.foldl (fun m p => setSnd m p.1 p.2) acc) = true
  | [], _, h => h
  | (k₀, c₀) :: t, acc, h =>
    btmSortedB_foldl_setSnd t (setSnd acc k₀ c₀) (btmSortedB_setSnd acc k₀ c₀ h)

theorem scrReadRows_no_blank :
    ∀ (ls : List String) (acc : List (String × Nat)), "" ∉ ls →
      ∃ e, scrReadRows ls acc = .error e
  | [], _, _ => ⟨"unexpected eof while parsing script output", rfl⟩
  | l :: t, acc, h => by
    have hl : ¬l = "" := fun he => h (by rw [← he]; exact List.mem_cons_self _ _)
    have ht : "" ∉ t := fun hm => h (List.mem_cons_of_mem _ hm)
    cases hp : scrRowParse l with
    | error e => exact ⟨e, by simp [scrReadRows, hl, hp]⟩
    | ok p =>
      obtain ⟨e, he⟩ := scrReadRows_no_blank t (btmInsert acc p.1 p.2) ht
      exact ⟨e, by simp [scrReadRows, hl, hp, he]⟩

theorem scrReadRows_blank_split :
    ∀ (rows : List String) (acc : List (String × Nat)), "" ∉ rows →
      (∃ e, ∀ rest : List String, scrReadRows (rows ++ "" :: rest) acc = .error e) ∨
      (∃ a, ∀ rest : List String, scrReadRows (rows ++ "" :: rest) acc = .ok (a, rest))
  | [], acc, _ => .inr ⟨acc, fun rest => by simp [scrReadRows]⟩
  | l :: t, acc, h => by
    have hl : ¬l = "" := fun he => h (by rw [← he]; exact List.mem_cons_self _ _)
    have ht : "" ∉ t := fun hm => h (List.mem_cons_of_mem _ hm)
    cases hp : scrRowParse l with
    | error e => exact .inl ⟨e, fun rest => by simp [scrReadRows, hl, hp]⟩
    | ok p =>
      rcases scrReadRows_blank_split t (btmInsert acc p.1 p.2) ht with ⟨e, he⟩ | ⟨a, ha⟩
      · exact .inl ⟨e, fun rest => by simp [scrReadRows, hl, hp, he rest]⟩
      · exact .inr ⟨a, fun rest => by simp [scrReadRows, hl, hp, ha rest]⟩

theorem stockfishPerft_sent (conn : StockfishConn) (fen : String)
    (moves : List String) (depth : Nat) :
    ((stockfishPerft conn fen moves depth).2).sent
      = conn.sent ++ stockfishRequest conn.chess960 fen moves depth := by
  unfold stockfishPerft
  rcases h : stockfishParse conn.stream with ⟨res, rest⟩
  cases res <;> simp [h]

/-- A sample navigation state: fresh engine connection whose pending stream
holds one canned response, starting position descriptor `"FEN"`, empty move
path, target depth 1. -/
def sampleState : State :=
  ⟨⟨"", ["", "Nodes searched: 39", ""], false⟩, "FEN", [], 1⟩

/-- C1: for all Perft reports `A`, `B` (with the `BTreeMap` invariant on their
child maps), `Diff::new(A, B)` has a row for exactly the union of the two key
sets, each move mapping to the pair of optional counts (`some` of `A`'s count
iff `A` has the move, `some` of `B`'s count iff `B` has the move); the total is
the literal pair `(A.total, B.total)`; and the rows are strictly sorted in
lexicographic move-name order. -/
theorem diffNew_spec (A B : Perft)
    (hA : btmSortedB A.child_count = true) (hB : btmSortedB B.child_count = true) :
    (∀ k, btmFind (Diff.new A B).child_count k
        = if btmFind A.child_count k = none ∧ btmFind B.child_count k = none
          then none
          else some (btmFind A.child_count k, btmFind B.child_count k))
    ∧ (∀ k, k ∈ (Diff.new A B).child_count.map Prod.fst
        ↔ k ∈ A.child_count.map Prod.fst ∨ k ∈ B.child_count.map Prod.fst)
    ∧ (Diff.new A B).total_count = (A.total_count, B.total_count)
    ∧ btmSortedB (Diff.new A B).child_count = true := by
  have hfind : ∀ k, btmFind (Diff.new A B).child_count k
      = if btmFind A.child_count k = none ∧ btmFind B.child_count k = none
        then none
        else some (btmFind A.child_count k, btmFind B.child_count k) := by
    intro k
    show btmFind (B.child_count.foldl (fun acc p => setSnd acc p.1 p.2)
      (A.child_count.foldl (fun acc p => setFst acc p.1 p.2) [])) k = _
    rw [btmFind_foldl_setSnd, btmFind_foldl_setFst,
      lastFind_eq_btmFind _ _ hA, lastFind_eq_btmFind _ _ hB]
    cases hA' : btmFind A.child_count k <;> cases hB' : btmFind B.child_count k <;>
      simp [btmFind, fstPart, sndPart]
  refine ⟨hfind, ?_, rfl, ?_⟩
  · intro k
    rw [← btmFind_ne_none_iff_mem, ← btmFind_ne_none_iff_mem, ← btmFind_ne_none_iff_mem,
      hfind k]
    by_cases hA' : btmFind A.child_count k = none <;>
      by_cases hB' : btmFind B.child_count k = none <;> simp [hA', hB']
  · exact btmSortedB_foldl_setSnd B.child_count _
      (btmSortedB_foldl_setFst A.child_count [] rfl)

/-- Witness for C1 at two concrete reports: the totals are copied verbatim and
a shared move gets both counts. -/
theorem diffNew_spec_witness :
    (Diff.new ⟨20, [("a2a3", 1), ("e2e4", 5)]⟩ ⟨30, [("e2e4", 6), ("h2h4", 2)]⟩).total_count
        = (20, 30)
    ∧ btmFind (Diff.new ⟨20, [("a2a3", 1), ("e2e4", 5)]⟩
        ⟨30, [("e2e4", 6), ("h2h4", 2)]⟩).child_count "e2e4" = some (some 5, some 6) := by
  have h := diffNew_spec ⟨20, [("a2a3", 1), ("e2e4", 5)]⟩
    ⟨30, [("e2e4", 6), ("h2h4", 2)]⟩ (by decide) (by decide)
  refine ⟨h.2.2.1, ?_⟩
  rw [h.1 "e2e4"]
  decide

/-- C2: the relative depth sent to both backends is the target depth minus the
move-path length as wrapping 64-bit `usize` subtraction: for depth 3 it is 1,
3, 0 at path lengths 2, 0, 3; when the path is not longer it is the exact
difference; when the path is longer the subtraction wraps to `2^64 - (len -
depth)`, a value larger than the target depth, rather than failing; and
`State::diff` stamps exactly this wrapped value into the engine request. -/
theorem relativeDepth_spec :
    (usizeSub 3 2 = 1 ∧ usizeSub 3 0 = 3 ∧ usizeSub 3 3 = 0)
    ∧ (∀ d l : Nat, l ≤ d → d < 2 ^ 64 → usizeSub d l = d - l)
    ∧ (∀ d l : Nat, d < l → l < 2 ^ 64 →
        usizeSub d l = 2 ^ 64 - (l - d) ∧ d < usizeSub d l)
    ∧ (∀ (s : State) (out : Except String (List String)) (lhs : Perft),
        scriptPerft out = .ok lhs →
        ((State.diff s out).2).stockfish.sent
          = s.stockfish.sent
            ++ stockfishRequest s.stockfish.chess960 s.fen s.moves
                (usizeSub s.depth s.moves.length)) := by
  refine ⟨⟨by decide, by decide, by decide⟩, ?_, ?_, ?_⟩
  · intro d l hl hd
    unfold usizeSub
    rw [Nat.mod_eq_of_lt (lt_of_le_of_lt hl hd)]
    have he : d + 2 ^ 64 - l = 2 ^ 64 + (d - l) := by omega
    rw [he, Nat.add_mod_left, Nat.mod_eq_of_lt (by omega)]
  · intro d l hd hl
    unfold usizeSub
    rw [Nat.mod_eq_of_lt hl]
    constructor
    · rw [Nat.mod_eq_of_lt (by omega)]
      omega
    · rw [Nat.mod_eq_of_lt (by omega)]
      omega
  · intro s out lhs hok
    have hsent := stockfishPerft_sent s.stockfish s.fen s.moves
      (usizeSub s.depth s.moves.length)
    unfold State.diff
    rw [hok]
    rcases hsf : stockfishPerft s.stockfish s.fen s.moves
      (usizeSub s.depth s.moves.length) with ⟨res, conn₂⟩
    rw [hsf] at hsent
    cases res <;> simpa using hsent

/-- Witness for C2: relative depth 3 for depth 5, path length 2; wrapped huge
value for depth 2, path length 5; and a concrete `State::diff` run appends the
request at the wrapped depth. -/
theorem relativeDepth_spec_witness :
    usizeSub 5 2 = 3 ∧ usizeSub 2 5 = 2 ^ 64 - 3
    ∧ ((State.diff sampleState (Except.ok ["", "400"])).2).stockfish.sent
        = "setoption name UCI_Chess960 value falseposition fen FEN\ngo perft 1\n" := by
  refine ⟨relativeDepth_spec.2.1 5 2 (by decide) (by decide),
    (relativeDepth_spec.2.2.1 2 5 (by decide) (by decide)).1, ?_⟩
  have h := relativeDepth_spec.2.2.2 sampleState (Except.ok ["", "400"]) ⟨400, []⟩ rfl
  rw [h]
  decide

/-- C3 (code bug): the request `Stockfish::perft` writes is NOT three
newline-terminated directives — the variant-toggle directive carries no
trailing newline, so it and the position directive are sent glued together as
a single line; only two newline-terminated lines reach the engine. -/
theorem stockfishRequest_lines :
    splitNl (stockfishRequest false "FEN" [] 1)
      = ["setoption name UCI_Chess960 value falseposition fen FEN", "go perft 1", ""]
    ∧ splitNl (stockfishRequest true "F" ["e2e4", "e7e5"] 2)
      = ["setoption name UCI_Chess960 value trueposition fen F moves e2e4 e7e5",
          "go perft 2", ""] :=
  ⟨by decide, by decide⟩

/-- C4 counterexample: on the reference engine's actual total line
`"Nodes searched: 39"`, splitting on `": "` leaves no third field (index 2) —
by the claim this would be a protocol-violation failure — yet the parser
succeeds with total 39, which sits in the second field (index 1). -/
theorem sfTotal_counter :
    (stockfishParse ["", "Nodes searched: 39", ""]).1 = .ok ⟨39, []⟩
    ∧ (splitColonSpace (strTrim "Nodes searched: 39"))[2]? = none
    ∧ (splitColonSpace (strTrim "Nodes searched: 39"))[1]? = some "39" :=
  ⟨rfl, by decide, by decide⟩

/-- C4 (amended): the total count is taken from the SECOND field (index 1,
Rust `nth(1)`) of the trimmed total-count line split repeatedly on `": "`; a
missing second field is a protocol-violation failure. -/
theorem sfTotal_spec :
    (∀ (t x s : String) (n : Nat),
      (splitColonSpace (strTrim t))[1]? = some s → parseU128 s = some n →
      (stockfishParse ["", t, x]).1 = .ok ⟨n, []⟩)
    ∧ (∀ t x : String, (splitColonSpace (strTrim t))[1]? = none →
      ((stockfishParse ["", t, x]).1).isOk = false) := by
  have h1 : ∀ t x : String, sfReadRows ["", t, x] [] = (.ok [], [t, x]) :=
    fun t x => rfl
  constructor
  · intro t x s n hs hn
    simp only [stockfishParse, h1, sfReadTotal, hs, hn]
  · intro t x hs
    simp only [stockfishParse, h1, sfReadTotal, hs]
    rfl

/-- Witness for C4's amended theorem at a concrete total line. -/
theorem sfTotal_spec_witness :
    (stockfishParse ["", "Total: 7", "x"]).1 = .ok ⟨7, []⟩
    ∧ ((stockfishParse ["", "NoSeparator", "x"]).1).isOk = false :=
  ⟨sfTotal_spec.1 "Total: 7" "x" "7" 7 (by decide) (by decide),
    sfTotal_spec.2 "NoSeparator" "x" (by decide)⟩

/-- C5: on the response `e2e4: 20 / e2e3: 19 / blank / Nodes searched: 39 /
blank`, the persistent backend's parser yields total 39 with child counts
e2e4 ↦ 20 and e2e3 ↦ 19, and consumes the trailing blank line, leaving the
stream positioned exactly at whatever follows. -/
theorem stockfishParse_example (rest : List String) :
    stockfishParse (["e2e4: 20", "e2e3: 19", "", "Nodes searched: 39", ""] ++ rest)
      = (.ok ⟨39, [("e2e3", 19), ("e2e4", 20)]⟩, rest) := rfl

/-- C6: on stdout `e2e4 20 / e2e3 19 / blank / 400` the script backend's
parser yields total 400 with child counts e2e4 ↦ 20 and e2e3 ↦ 19; if the
stdout ends before the blank separator, or right after it (before the total
line), parsing fails; and lines after the total line are ignored — the result
does not depend on them. -/
theorem scriptParse_spec :
    scriptParse ["e2e4 20", "e2e3 19", "", "400"]
        = .ok ⟨400, [("e2e3", 19), ("e2e4", 20)]⟩
    ∧ (∀ ls : List String, "" ∉ ls → (scriptParse ls).isOk = false)
    ∧ (∀ rows : List String, "" ∉ rows → (scriptParse (rows ++ [""])).isOk = false)
    ∧ (∀ (rows : List String) (t : String) (r r' : List String), "" ∉ rows →
        scriptParse (rows ++ "" :: t :: r) = scriptParse (rows ++ "" :: t :: r')) := by
  refine ⟨rfl, ?_, ?_, ?_⟩
  · intro ls h
    obtain ⟨e, he⟩ := scrReadRows_no_blank ls [] h
    simp only [scriptParse, he]
    rfl
  · intro rows h
    rcases scrReadRows_blank_split rows [] h with ⟨e, he⟩ | ⟨a, ha⟩
    · have hx := he []
      simp only [scriptParse, hx]
      rfl
    · have hx := ha []
      simp only [scriptParse, hx]
      rfl
  · intro rows t r r' h
    rcases scrReadRows_blank_split rows [] h with ⟨e, he⟩ | ⟨a, ha⟩
    · rw [scriptParse, scriptParse, he (t :: r), he (t :: r')]
    · rw [scriptParse, scriptParse, ha (t :: r), ha (t :: r')]

/-- Witness for C6: a stream with no blank separator fails, and trailing
garbage after the total line does not change the result. -/
theorem scriptParse_spec_witness :
    (scriptParse ["e2e4 20"]).isOk = false
    ∧ scriptParse ["e2e4 20", "", "400", "junk"] = scriptParse ["e2e4 20", "", "400"] :=
  ⟨scriptParse_spec.2.1 ["e2e4 20"] (by decide),
    scriptParse_spec.2.2.2 ["e2e4 20"] "400" ["junk"] [] (by decide)⟩

/-- C7: when `State::diff` fails (script transport failure, or a
protocol-violation failure from either backend), the navigation state —
position descriptor, move path, and target depth — is exactly what it was
before the call. -/
theorem diff_preserves_nav (s : State) (out : Except String (List String))
    (_h : ((State.diff s out).1).isOk = false) :
    ((State.diff s out).2).fen = s.fen
    ∧ ((State.diff s out).2).moves = s.moves
    ∧ ((State.diff s out).2).depth = s.depth := by
  clear _h
  unfold State.diff
  cases hsp : scriptPerft out with
  | error e => exact ⟨rfl, rfl, rfl⟩
  | ok lhs =>
    rcases hsf : stockfishPerft s.stockfish s.fen s.moves
      (usizeSub s.depth s.moves.length) with ⟨res, conn₂⟩
    cases res <;> exact ⟨rfl, rfl, rfl⟩

/-- Witness for C7: a failing script invocation leaves the navigation state
untouched. -/
theorem diff_preserves_nav_witness :
    ((State.diff sampleState (Except.error "io error")).1).isOk = false
    ∧ ((State.diff sampleState (Except.error "io error")).2).fen = sampleState.fen
    ∧ ((State.diff sampleState (Except.error "io error")).2).moves = sampleState.moves
    ∧ ((State.diff sampleState (Except.error "io error")).2).depth = sampleState.depth := by
  refine ⟨rfl, diff_preserves_nav sampleState (Except.error "io error") rfl⟩

/-- C8: from a state with empty move path, go-to-child "e2e4" then "e7e5"
yields the path ["e2e4", "e7e5"]; go-to-parent yields ["e2e4"]; again yields
[]; and go-to-parent on an empty path is a silent no-op yielding []. -/
theorem nav_spec (s : State) (h : s.moves = []) :
    ((s.gotoChild "e2e4").gotoChild "e7e5").moves = ["e2e4", "e7e5"]
    ∧ (((s.gotoChild "e2e4").gotoChild "e7e5").gotoParent).moves = ["e2e4"]
    ∧ ((((s.gotoChild "e2e4").gotoChild "e7e5").gotoParent).gotoParent).moves = []
    ∧ (((((s.gotoChild "e2e4").gotoChild "e7e5").gotoParent).gotoParent).gotoParent).moves
        = []
    ∧ ∀ s' : State, s'.moves = [] → (s'.gotoParent).moves = [] := by
  refine ⟨?_, ?_, ?_, ?_, ?_⟩
  · simp [State.gotoChild, h]
  · simp [State.gotoChild, State.gotoParent, h]
  · simp [State.gotoChild, State.gotoParent, h]
  · simp [State.gotoChild, State.gotoParent, h]
  · intro s' h'
    simp [State.gotoParent, h']

/-- Witness for C8 at the sample state. -/
theorem nav_spec_witness :
    ((sampleState.gotoChild "e2e4").gotoChild "e7e5").moves = ["e2e4", "e7e5"]
    ∧ (((sampleState.gotoChild "e2e4").gotoChild "e7e5").gotoParent).moves = ["e2e4"] :=
  ⟨(nav_spec sampleState rfl).1, (nav_spec sampleState rfl).2.1⟩

/-- C9: `State::diff` queries the script backend first; if the script query
fails, the result is that failure and the state — including the persistent
engine's conversation (bytes sent and pending stream) — is returned
untouched; when both queries succeed, the script report is the left `Diff`
component and the engine report the right one. -/
theorem diff_script_first (s : State) (out : Except String (List String)) :
    ((scriptPerft out).isOk = false →
      (State.diff s out).2 = s
      ∧ ∃ e, scriptPerft out = .error e ∧ (State.diff s out).1 = .error e)
    ∧ (∀ (lhs rhs : Perft) (conn₂ : StockfishConn), scriptPerft out = .ok lhs →
        stockfishPerft s.stockfish s.fen s.moves (usizeSub s.depth s.moves.length)
          = (.ok rhs, conn₂) →
        (State.diff s out).1 = .ok (Diff.new lhs rhs)
        ∧ (Diff.new lhs rhs).total_count = (lhs.total_count, rhs.total_count)) := by
  cases hsp : scriptPerft out with
  | error e =>
    refine ⟨fun _ => ?_, fun lhs rhs conn₂ hok => ?_⟩
    · exact ⟨by simp [State.diff, hsp], e, rfl, by simp [State.diff, hsp]⟩
    · exact absurd hok (by simp)
  | ok lhs₀ =>
    refine ⟨fun hko => ?_, fun lhs rhs conn₂ hok hsf => ?_⟩
    · exact absurd hko (by simp [Except.isOk, Except.toBool])
    · have hl : lhs = lhs₀ := (Except.ok.inj hok).symm
      subst hl
      refine ⟨?_, rfl⟩
      simp [State.diff, hsp, hsf]

/-- Witness for C9: with a failing script invocation, the engine connection
(and the whole state) is untouched; with both backends succeeding, the totals
land script-side left, engine-side right. -/
theorem diff_script_first_witness :
    (State.diff sampleState (Except.error "gone")).2 = sampleState
    ∧ (State.diff sampleState (Except.ok ["", "400"])).1
        = .ok (Diff.new ⟨400, []⟩ ⟨39, []⟩)
    ∧ (Diff.new ⟨400, []⟩ ⟨39, []⟩).total_count = (400, 39) := by
  refine ⟨((diff_script_first sampleState (Except.error "gone")).1 rfl).1, ?_⟩
  have h := (diff_script_first sampleState (Except.ok ["", "400"])).2
    ⟨400, []⟩ ⟨39, []⟩
    ⟨"setoption name UCI_Chess960 value falseposition fen FEN\ngo perft 1\n", [], false⟩
    rfl rfl
  exact h

/-- C10: duplicate well-formed rows for one move are not a failure: the later
row's count replaces the earlier one, both in each full parser and in the
shared map-insertion step, and the resulting map's keys are unique by
construction (the map built by folding insertions has exactly the last
binding for each key and duplicate-free keys). -/
theorem dup_rows_spec :
    scriptParse ["a7a5 10", "a7a5 12", "", "22"] = .ok ⟨22, [("a7a5", 12)]⟩
    ∧ (stockfishParse ["a7a5: 10", "a7a5: 12", "", "Nodes searched: 22", ""]).1
        = .ok ⟨22, [("a7a5", 12)]⟩
    ∧ (∀ (acc : List (String × Nat)) (m : String) (c₁ c₂ : Nat),
        btmFind (btmInsert (btmInsert acc m c₁) m c₂) m = some c₂)
    ∧ (∀ (l : List (String × Nat)) (k : String),
        btmFind (l.foldl (fun a p => btmInsert a p.1 p.2) []) k = lastFind l k)
    ∧ (∀ l : List (String × Nat),
        ((l.foldl (fun a p => btmInsert a p.1 p.2) []).map Prod.fst).Nodup) := by
  refine ⟨rfl, rfl, ?_, ?_, ?_⟩
  · intro acc m c₁ c₂
    exact btmFind_insert_self _ m c₂
  · intro l k
    rw [btmFind_foldl_insert]
    cases lastFind l k <;> rfl
  · intro l
    exact keys_nodup_of_btmSortedB _ (btmSortedB_foldl_insert l [] rfl)

end Perftree
